import Mathlib

/-!
Shallow embedding of the Ralph loop core (`src/features/ralph/engine.ts`,
`src/features/ralph/stop-conditions.ts`, and the file snapshot manager),
together with theorems checking the natural-language specification against it.

JS regular-expression matching over the fixed patterns of the source is
embedded as explicit scanners over `List Char`; JS `async` functions that
always resolve are embedded as total functions, and functions whose promise
can reject are embedded with `Except`.
-/

namespace Ralph

/-! ### Progress detector (`stop-conditions.ts`, createSimpleProgressDetector / countErrors) -/

/-- JS regex word character class `\w` = `[A-Za-z0-9_]` (ASCII), used by `\b`. -/
def isWordChar (c : Char) : Bool :=
  ('a' ≤ c && c ≤ 'z') || ('A' ≤ c && c ≤ 'Z') || ('0' ≤ c && c ≤ '9') || c == '_'

/-- Case-insensitive check that `pat` (already lowercase) occurs at the head of `s`. -/
def lowerHeadMatch : List Char → List Char → Bool
  | [], _ => true
  | _ :: _, [] => false
  | p :: ps, c :: cs => (c.toLower == p) && lowerHeadMatch ps cs

/-- The `\b` requirement after a match of length `patLen` starting at `s`:
either the string ends there or the next character is not a word character. -/
def boundaryAfter (patLen : Nat) (s : List Char) : Bool :=
  match s.drop patLen with
  | [] => true
  | d :: _ => !(isWordChar d)

/-- Does some alternative of the pattern match at this position (with its
trailing word boundary)?  The leading boundary is handled by the scanner. -/
def altHitAt (alts : List (List Char)) (s : List Char) : Bool :=
  alts.any (fun p => lowerHeadMatch p s && boundaryAfter p.length s)

/-- Scanner counting positions where a word-boundary-delimited alternative
matches; `lastWord` records whether the previous character was a word
character (the leading `\b`). Matches of the source's patterns cannot
overlap, so counting positions equals the JS global match count. -/
def countAltsAux (alts : List (List Char)) : Bool → List Char → Nat
  | _, [] => 0
  | lastWord, c :: cs =>
      (if !lastWord && altHitAt alts (c :: cs) then 1 else 0)
        + countAltsAux alts (isWordChar c) cs

/-- Number of matches of the case-insensitive global regex
`\b(alt1|alt2|...)\b` in `s` (longer alternatives listed first). -/
def countWordAlts (alts : List String) (s : String) : Nat :=
  countAltsAux (alts.map String.data) false s.data

/-- Number of occurrences of a literal symbol (global regex on one char). -/
def countSym (ch : Char) (s : String) : Nat :=
  s.data.count ch

/-- `countErrors` of `stop-conditions.ts`: total number of matches of the six
error patterns `\berror\b`, `\bfail(?:ed|ure|s)?\b`, `\bexception\b`,
`\bstack trace\b`, `✗`, `✘` (all global, the words case-insensitive). -/
def countErrors (output : String) : Nat :=
  countWordAlts ["error"] output
    + countWordAlts ["failed", "failure", "fails", "fail"] output
    + countWordAlts ["exception"] output
    + countWordAlts ["stack trace"] output
    + countSym '✗' output
    + countSym '✘' output

/-- One of the progress / regression regexes of `createSimpleProgressDetector`:
either a word pattern with boundaries or a literal symbol. -/
inductive TextPattern
  | words (alts : List String)
  | sym (ch : Char)
deriving DecidableEq, Repr

/-- Whether the pattern occurs anywhere in `s`. -/
def TextPattern.found : TextPattern → String → Bool
  | .words alts, s => 0 < countWordAlts alts s
  | .sym ch, s => s.data.contains ch

/-- `(s.match(pattern) || []).length` for a NON-global regex: `1` when the
pattern occurs, else `0` — multiplicity is not observed. -/
def TextPattern.matchCount (p : TextPattern) (s : String) : Nat :=
  if p.found s then 1 else 0

/-- The `progressPatterns` array: `\bpassed?\b`, `\bsuccess\b`, `\bfixed\b`,
`\bresolved\b`, `\bcompleted?\b`, `\bworking\b`, `✓`, `✔` (non-global). -/
def progressPatterns : List TextPattern :=
  [.words ["passed", "pass"], .words ["success"], .words ["fixed"],
   .words ["resolved"], .words ["completed", "complete"], .words ["working"],
   .sym '✓', .sym '✔']

/-- The `regressionPatterns` array: `\bfailed?\b`, `\berror\b`,
`\bexception\b`, `✗`, `✘` (non-global). -/
def regressionPatterns : List TextPattern :=
  [.words ["failed", "fail"], .words ["error"], .words ["exception"],
   .sym '✗', .sym '✘']

/-- The `for` loops over the pattern arrays: did some pattern's (non-global)
match count strictly increase from `prev` to `current`? -/
def anyCountRose (pats : List TextPattern) (prev current : String) : Bool :=
  pats.any (fun p => p.matchCount prev < p.matchCount current)

/-- JS `String.prototype.trim` on its ASCII whitespace fragment, computed on
the character data. -/
def jsTrim (s : String) : String :=
  ⟨((s.data.dropWhile Char.isWhitespace).reverse.dropWhile Char.isWhitespace).reverse⟩

/-- `detectProgress` of the simple heuristic detector (an async function that
always resolves; embedded as a total function). -/
def detectProgress (prevOutput currentOutput : String) : Bool :=
  if prevOutput = currentOutput then false
  else if jsTrim currentOutput = "" && !(jsTrim prevOutput = "") then false
  else
    let prevErrors := countErrors prevOutput
    let currentErrors := countErrors currentOutput
    if currentErrors < prevErrors then true
    else if prevErrors < currentErrors then false
    else if anyCountRose progressPatterns prevOutput currentOutput then true
    else if anyCountRose regressionPatterns prevOutput currentOutput then false
    else true

/-! ### Stop conditions (`stop-conditions.ts`, shouldStop) -/

/-- `LoopRunState`; `startedAt` is a millisecond epoch timestamp. -/
structure LoopRunState where
  iterations : Nat
  startedAt : Int
  noProgressCount : Nat
deriving DecidableEq, Repr

/-- `StopConditions` value object. -/
structure StopConditions where
  maxIterations : Nat
  maxDurationMs : Int
  noProgressThreshold : Nat
deriving DecidableEq, Repr

inductive StopReasonType
  | max_iterations
  | max_duration
  | no_progress
deriving DecidableEq, Repr

structure StopReason where
  reason : StopReasonType
  details : String
deriving DecidableEq, Repr

/-- `shouldStop(state, conditions)`; the source reads `new Date()` internally,
embedded as the explicit parameter `now` (millisecond epoch). -/
def shouldStop (state : LoopRunState) (conditions : StopConditions) (now : Int) :
    Option StopReason :=
  if conditions.maxIterations ≤ state.iterations then
    some { reason := .max_iterations,
           details := "Reached maximum iterations (" ++ toString state.iterations
             ++ "/" ++ toString conditions.maxIterations ++ ")" }
  else
    let durationMs := now - state.startedAt
    if conditions.maxDurationMs ≤ durationMs then
      some { reason := .max_duration,
             details := "Reached maximum duration ("
               ++ toString (Int.fdiv durationMs 60000) ++ "min/"
               ++ toString (Int.fdiv conditions.maxDurationMs 60000) ++ "min)" }
    else if conditions.noProgressThreshold ≤ state.noProgressCount then
      some { reason := .no_progress,
             details := "No progress detected for " ++ toString state.noProgressCount
               ++ " consecutive iterations" }
    else none

/-! ### Stop condition manager (`stop-conditions.ts`, createStopConditionManager) -/

/-- The closure state of a stop condition manager: the `state` record
(minus `startedAt`, irrelevant to `recordIteration`) plus `lastOutput`. -/
structure ManagerState where
  iterations : Nat
  noProgressCount : Nat
  lastOutput : String
deriving DecidableEq, Repr

/-- Fresh manager state: `iterations = 0`, `noProgressCount = 0`, `lastOutput = ""`. -/
def initialManagerState : ManagerState :=
  { iterations := 0, noProgressCount := 0, lastOutput := "" }

/-- `recordIteration(output)`, parameterized by the (pluggable) progress
detector so that theorems can quantify over every detector. -/
def recordIteration (detector : String → String → Bool)
    (st : ManagerState) (output : String) : ManagerState :=
  let iters := st.iterations + 1
  if iters = 1 then
    { iterations := iters, noProgressCount := st.noProgressCount, lastOutput := output }
  else if detector st.lastOutput output then
    { iterations := iters, noProgressCount := 0, lastOutput := output }
  else
    { iterations := iters, noProgressCount := st.noProgressCount + 1, lastOutput := output }

/-! ### Criteria evaluator (`engine.ts`, createCriteriaEvaluator) -/

inductive SuccessCriteriaType
  | test_pass
  | build_success
  | lint_clean
  | type_check
  | custom
deriving DecidableEq, Repr

/-- String form of a criteria type, as it appears in reasons and output blocks. -/
def typeName : SuccessCriteriaType → String
  | .test_pass => "test_pass"
  | .build_success => "build_success"
  | .lint_clean => "lint_clean"
  | .type_check => "type_check"
  | .custom => "custom"

/-- Modelled from the spec: the `SuccessCriteria` record is declared in
`src/utils/config.ts`, which is not among the sources; §3 of the spec and the
field accesses in the evaluator give it a type, an optional command override,
an optional timeout, and an optional expected exit code. -/
structure SuccessCriteria where
  type : SuccessCriteriaType
  command : Option String := none
  timeout : Option Int := none
  expectedExitCode : Option Int := none
deriving DecidableEq, Repr

structure EvaluationResult where
  success : Bool
  output : String
  reason : String
  exitCode : Option Int := none
  suggestions : Option (List String) := none
deriving DecidableEq, Repr

structure CommandConfig where
  command : String
  args : List String
deriving DecidableEq, Repr

/-- `DEFAULT_COMMANDS` (the source record has no `custom` key; `getCommandConfig`
never consults it for `custom`). -/
def defaultCommand : SuccessCriteriaType → CommandConfig
  | .test_pass => { command := "npm", args := ["test"] }
  | .build_success => { command := "npm", args := ["run", "build"] }
  | .lint_clean => { command := "npm", args := ["run", "lint"] }
  | .type_check => { command := "npx", args := ["tsc", "--noEmit"] }
  | .custom => { command := "", args := [] }

/-- Whitespace tokenizer over character data: the non-empty maximal runs of
non-whitespace characters, i.e. `str.trim().split(/\s+/)` minus the single
empty token JS produces for an all-whitespace string. -/
def wsTokensAux : List Char → List Char → List (List Char)
  | [], acc => if acc = [] then [] else [acc.reverse]
  | c :: cs, acc =>
      if c.isWhitespace then
        if acc = [] then wsTokensAux cs [] else acc.reverse :: wsTokensAux cs []
      else wsTokensAux cs (c :: acc)

/-- `parseCommand`: trim, split on whitespace runs, head is the command
(`parts[0] || ""` when there is none). -/
def parseCommand (commandStr : String) : CommandConfig :=
  let parts := (wsTokensAux commandStr.data []).map (fun l => String.mk l)
  { command := parts.headD "", args := parts.tail }

/-- `getCommandConfig` (the JS truthiness test `if (criteria.command)` treats a
missing and an empty command alike). -/
def getCommandConfig (criteria : SuccessCriteria) : CommandConfig :=
  let cmd := criteria.command.getD ""
  if cmd ≠ "" then parseCommand cmd
  else if criteria.type = .custom then { command := "", args := [] }
  else defaultCommand criteria.type

/-- Result of `executeCommand` (exit code, captured stdout, captured stderr). -/
structure ExecResult where
  exitCode : Int
  stdout : String
  stderr : String
deriving DecidableEq, Repr

/-- The `close` handler of `executeCommand`: a process the timeout timer killed
(`killed = true`, after `proc.kill("SIGTERM")`) reports exit code `-1`;
otherwise the real exit code, defaulting to `1` when null. -/
def closeResult (killed : Bool) (code : Option Int) (stdout stderr : String) : ExecResult :=
  { exitCode := if killed then -1 else code.getD 1, stdout := stdout, stderr := stderr }

/-- `evaluate(criteria, options)`, embedded over the outcome `exec` of its
single `executeCommand` call and over the pattern-mining helper
`extractSuggestions` (whose internals no claim touches).  The second component
counts how many times a command was spawned; the source has exactly one call
site and no retry.  The async source function always resolves, so the
embedding is total. -/
def evaluate (extract : SuccessCriteriaType → String → String → List String)
    (exec : ExecResult) (criteria : SuccessCriteria) : EvaluationResult × Nat :=
  let commandConfig := getCommandConfig criteria
  if criteria.type = .custom ∧ commandConfig.command = "" then
    ({ success := false, output := "", reason := "Custom criteria requires a command" }, 0)
  else if commandConfig.command = "" then
    ({ success := false, output := "", reason := "No command specified" }, 0)
  else if exec.exitCode = -1 then
    ({ success := false, output := exec.stdout ++ exec.stderr,
       reason := "Command timed out", exitCode := some (-1),
       suggestions := some ["Increase timeout or optimize the command"] }, 1)
  else
    let expectedExitCode := criteria.expectedExitCode.getD 0
    let success := exec.exitCode == expectedExitCode
    let output := exec.stdout ++ exec.stderr
    let rawSuggestions := extract criteria.type exec.stdout exec.stderr
    ({ success := success, output := output,
       reason := if success then typeName criteria.type ++ " passed"
         else typeName criteria.type ++ " failed with exit code " ++ toString exec.exitCode,
       exitCode := some exec.exitCode,
       suggestions := if success then none
         else if rawSuggestions.isEmpty then none else some rawSuggestions }, 1)

/-- A per-criterion block of `evaluateAll`'s combined output:
`` `[${criterion.type}]\n${result.output}` ``. -/
def criterionBlock (c : SuccessCriteria) (r : EvaluationResult) : String :=
  "[" ++ typeName c.type ++ "]\n" ++ r.output

/-- The `for` loop of `evaluateAll`, with the source's `allOutput` and
`allSuggestions` accumulators made explicit; `ev` is the single-criterion
`this.evaluate` (its spawning already accounted for, so only the
`EvaluationResult` matters here).  `total` is the length of the original list,
used by the all-passed reason. -/
def evaluateAllGo (ev : SuccessCriteria → EvaluationResult) (total : Nat) :
    List SuccessCriteria → List String → List String → EvaluationResult
  | [], allOutput, _ =>
      { success := true, output := String.intercalate "\n\n" allOutput,
        reason := "All " ++ toString total ++ " criteria passed" }
  | c :: rest, allOutput, allSuggestions =>
      let r := ev c
      let outs := allOutput ++ [criterionBlock c r]
      let suggs := allSuggestions ++ r.suggestions.getD []
      if r.success then
        evaluateAllGo ev total rest outs suggs
      else
        { success := false, output := String.intercalate "\n\n" outs,
          reason := r.reason, exitCode := r.exitCode,
          suggestions := if suggs.isEmpty then none else some suggs }

/-- `evaluateAll(criteria, options)`. -/
def evaluateAll (ev : SuccessCriteria → EvaluationResult)
    (criteria : List SuccessCriteria) : EvaluationResult :=
  if criteria.isEmpty then
    { success := true, output := "", reason := "No criteria to evaluate" }
  else
    evaluateAllGo ev criteria.length criteria [] []

/-- The blocks `evaluateAll` accumulates: one per criterion actually
evaluated, stopping after the first failure. -/
def executedBlocks (ev : SuccessCriteria → EvaluationResult) :
    List SuccessCriteria → List String
  | [] => []
  | c :: rest =>
      let r := ev c
      criterionBlock c r :: (if r.success then executedBlocks ev rest else [])

/-! ### Loop engine (`engine.ts`, createLoopEngine) -/

inductive LoopReason
  | success
  | max_iterations
  | stopped
  | error
deriving DecidableEq, Repr

/-- `LoopResult` returned by `start()`. -/
structure LoopResult where
  success : Bool
  iterations : Nat
  reason : LoopReason
  loopRunId : String
  error : Option String := none
deriving DecidableEq, Repr

/-- `IterationResult` returned by the iteration callback. -/
structure IterationResult where
  success : Bool
  output : Option String := none
  error : Option String := none
deriving DecidableEq, Repr

/-- Database writes the engine performs, in order, as observable events. -/
inductive DBEvent
  | createLoopRun
  | updateIterations (n : Nat)
  | endLoopRun (status : String)
  | createObservation
deriving DecidableEq, Repr

def noCallbackMsg : String :=
  "No iteration callback set. Call onIteration() before start()."

/-- The cooperative `stopRequested` flag as seen at the top of a loop pass,
after `completed` iterations have finished: its value on entry to the loop
(`initFlag`), or a `stop()` call issued once `k` iterations had completed
(`stopAfter = some k`). -/
def stopFlagAt (initFlag : Bool) (stopAfter : Option Nat) (completed : Nat) : Bool :=
  initFlag || match stopAfter with
    | some k => decide (k ≤ completed)
    | none => false

/-- `if (iterationResult.error) lastError = iterationResult.error` — the JS
truthiness test ignores an empty message. -/
def keepError (lastError : Option String) (e : Option String) : Option String :=
  match e with
  | some s => if s = "" then lastError else some s
  | none => lastError

/-- The `while (iteration < maxIterations)` loop of `start()`, inside its
`try`/`catch`.  `remaining = maxIterations - iteration` is the fuel;
`cb = none` means no iteration callback was registered (the in-loop check
throws, and the `catch` converts the throw into a resolved result);
`f iter = .error msg` means the callback itself rejected at that iteration.
The cooldown sleep has no observable state effect and is omitted. -/
def loopGo (cb : Option (Nat → Except String IterationResult))
    (initFlag : Bool) (stopAfter : Option Nat) (loopRunId : String) :
    Nat → Nat → Option String → List DBEvent → LoopResult × List DBEvent
  | 0, iteration, lastError, trace =>
      ({ success := false, iterations := iteration, reason := .max_iterations,
         loopRunId := loopRunId, error := lastError },
        trace ++ [.endLoopRun "failed", .createObservation])
  | remaining + 1, iteration, lastError, trace =>
      if stopFlagAt initFlag stopAfter iteration then
        ({ success := false, iterations := iteration, reason := .stopped,
           loopRunId := loopRunId },
          trace ++ [.endLoopRun "stopped", .createObservation])
      else
        let iter := iteration + 1
        let trace2 := trace ++ [DBEvent.updateIterations iter]
        match cb with
        | none =>
            ({ success := false, iterations := iter, reason := .error,
               loopRunId := loopRunId, error := some noCallbackMsg },
              trace2 ++ [.endLoopRun "failed", .createObservation])
        | some f =>
            match f iter with
            | .error msg =>
                ({ success := false, iterations := iter, reason := .error,
                   loopRunId := loopRunId, error := some msg },
                  trace2 ++ [.endLoopRun "failed", .createObservation])
            | .ok r =>
                if r.success then
                  ({ success := true, iterations := iter, reason := .success,
                     loopRunId := loopRunId },
                    trace2 ++ [.endLoopRun "success", .createObservation])
                else
                  loopGo cb initFlag stopAfter loopRunId remaining iter
                    (keepError lastError r.error) trace2

/-- `start(task, loopOptions)`.  `activeRun` is the id of the session's active
`LoopRun` if one exists (`client.getActiveLoopRun`); a concurrent start throws
(the async function rejects, hence `Except`).  `staleStopRequested` is the
value of the engine's `stopRequested` flag on entry; line 199 of the source
(`stopRequested = false`) discards it before the loop, which is why the loop
runs with `initFlag := false`. -/
def start (activeRun : Option String) (staleStopRequested : Bool)
    (cb : Option (Nat → Except String IterationResult)) (stopAfter : Option Nat)
    (maxIterations : Nat) (loopRunId : String) :
    Except String (LoopResult × List DBEvent) :=
  match activeRun with
  | some id =>
      .error ("Loop already running: " ++ id ++ ". Stop it first with stop().")
  | none =>
      let _stopRequested := false  -- stopRequested = false: staleStopRequested discarded
      .ok (loopGo cb _stopRequested stopAfter loopRunId maxIterations 0 none
        [DBEvent.createLoopRun])

/-! ### Snapshot manager (unnamed snapshot source, createSnapshotManager) -/

/-- The `.snapshot-meta.json` manifest content. -/
structure Manifest where
  runId : String
  createdAt : String
  files : List String
deriving DecidableEq, Repr

/-- A filesystem: directories, ordinary files with text content, and JSON
files already parsed into manifests (modelling `readFileSync` + `JSON.parse`
of a well-formed manifest; an unparseable manifest is a path present in
neither map but in `dirs`/`files`). Earlier entries shadow later ones. -/
structure FS where
  dirs : List String
  files : List (String × String)
  metas : List (String × Manifest)
deriving DecidableEq, Repr

def lookupFile (fs : FS) (p : String) : Option String :=
  (fs.files.find? (fun e => e.1 = p)).map (fun e => e.2)

def lookupMeta (fs : FS) (p : String) : Option Manifest :=
  (fs.metas.find? (fun e => e.1 = p)).map (fun e => e.2)

/-- `existsSync`. -/
def pathExists (fs : FS) (p : String) : Bool :=
  fs.dirs.contains p || (lookupFile fs p).isSome || (lookupMeta fs p).isSome

/-- `join(a, b)` for a relative second component. -/
def pjoin (a b : String) : String :=
  a ++ "/" ++ b

/-- `dirname`. -/
def dirname (p : String) : String :=
  let parts := p.split (fun c => c = '/')
  if parts.length ≤ 1 then "." else String.intercalate "/" parts.dropLast

/-- `writeFileSync` / the write half of `copyFileSync`. -/
def writeFile (fs : FS) (p : String) (content : String) : FS :=
  { fs with files := (p, content) :: fs.files }

/-- `mkdirSync(p, { recursive: true })`. -/
def mkdirp (fs : FS) (p : String) : FS :=
  { fs with dirs := p :: fs.dirs }

/-- One pass of the restore loop: copy `file` from the snapshot back to the
project when it still exists in the snapshot, else skip it. -/
def restoreStep (projectPath snapshotPath : String) (acc : FS) (file : String) : FS :=
  let srcPath := pjoin snapshotPath file
  let destPath := pjoin projectPath file
  match lookupFile acc srcPath with
  | some content => writeFile (mkdirp acc (dirname destPath)) destPath content
  | none => acc

/-- `restore(snapshotPath)` of the snapshot manager (an async function whose
promise rejects on the two failure conditions, hence `Except`). -/
def restore (projectPath : String) (fs : FS) (snapshotPath : String) : Except String FS :=
  if pathExists fs snapshotPath = false then
    .error ("Snapshot not found: " ++ snapshotPath)
  else
    let metaPath := pjoin snapshotPath ".snapshot-meta.json"
    if pathExists fs metaPath = false then
      .error ("Invalid snapshot: missing metadata at " ++ snapshotPath)
    else
      match lookupMeta fs metaPath with
      | none => .error "Unexpected token in JSON"
      | some metadata =>
          .ok (metadata.files.foldl (restoreStep projectPath snapshotPath) fs)

/-! ### Concrete instances used by witnesses -/

/-- A concrete single-criterion evaluator for witnesses: `build_success`
fails, everything else passes. -/
def evalW (c : SuccessCriteria) : EvaluationResult :=
  if c.type = .build_success then
    { success := false, output := "boom", reason := "build_success failed with exit code 1",
      exitCode := some 1 }
  else
    { success := true, output := "ok", reason := typeName c.type ++ " passed",
      exitCode := some 0 }

/-- A second evaluator agreeing with `evalW` everywhere except on
`lint_clean` — the criterion the short-circuit never reaches. -/
def evalW2 (c : SuccessCriteria) : EvaluationResult :=
  if c.type = .lint_clean then
    { success := false, output := "different", reason := "lint_clean failed with exit code 9",
      exitCode := some 9 }
  else evalW c

/-- A concrete filesystem for the restore witness: one snapshot directory
`snap` whose manifest lists `a.txt` (still present in the snapshot) and
`gone.txt` (no longer present); the project already holds an old
`proj/gone.txt`. -/
def fsW : FS :=
  { dirs := ["snap"],
    files := [("snap/a.txt", "hello"), ("proj/gone.txt", "old")],
    metas := [("snap/.snapshot-meta.json",
      { runId := "run1", createdAt := "2025-01-17T00:00:00Z",
        files := ["a.txt", "gone.txt"] })] }

/-! ## Theorems -/

/-- C3: for every state and conditions, `shouldStop` returns the first
matching reason in the fixed priority order max_iterations, then
max_duration, then no_progress, and none when no condition matches; a
higher-priority condition shadows lower ones when several hold at once. -/
theorem shouldStop_priority_order (state : LoopRunState) (conditions : StopConditions)
    (now : Int) :
    ((shouldStop state conditions now).map StopReason.reason
        = some StopReasonType.max_iterations
      ↔ conditions.maxIterations ≤ state.iterations)
    ∧ ((shouldStop state conditions now).map StopReason.reason
        = some StopReasonType.max_duration
      ↔ state.iterations < conditions.maxIterations
          ∧ conditions.maxDurationMs ≤ now - state.startedAt)
    ∧ ((shouldStop state conditions now).map StopReason.reason
        = some StopReasonType.no_progress
      ↔ state.iterations < conditions.maxIterations
          ∧ now - state.startedAt < conditions.maxDurationMs
          ∧ conditions.noProgressThreshold ≤ state.noProgressCount)
    ∧ (shouldStop state conditions now = none
      ↔ state.iterations < conditions.maxIterations
          ∧ now - state.startedAt < conditions.maxDurationMs
          ∧ state.noProgressCount < conditions.noProgressThreshold) := by
  by_cases h1 : conditions.maxIterations ≤ state.iterations <;>
    by_cases h2 : conditions.maxDurationMs ≤ now - state.startedAt <;>
      by_cases h3 : conditions.noProgressThreshold ≤ state.noProgressCount <;>
        simp [shouldStop, h1, h2, h3] <;> omega

/-- C9: the first `recordIteration` on a fresh manager leaves
`noProgressCount` at 0 for every output and every detector (the detector is
not consulted); every later call resets the counter to 0 on progress and
increments it by 1 otherwise. -/
theorem recordIteration_first_then_count :
    (∀ (detector : String → String → Bool) (output : String),
        recordIteration detector initialManagerState output
          = { iterations := 1, noProgressCount := 0, lastOutput := output })
    ∧ (∀ (detector : String → String → Bool) (st : ManagerState) (output : String),
        1 ≤ st.iterations →
        (recordIteration detector st output).noProgressCount
          = if detector st.lastOutput output then 0 else st.noProgressCount + 1) := by
  constructor
  · intro detector output
    rfl
  · intro detector st output h
    have hne : ¬ (st.iterations + 1 = 1) := by omega
    unfold recordIteration
    simp only [hne, if_false]
    split <;> simp_all

/-- Witness for C9 at concrete inputs. -/
theorem recordIteration_first_then_count_witness :
    recordIteration (fun _ _ => true) initialManagerState "anything"
        = { iterations := 1, noProgressCount := 0, lastOutput := "anything" }
    ∧ (recordIteration (fun _ _ => false)
        { iterations := 1, noProgressCount := 0, lastOutput := "a" } "b").noProgressCount
        = 1 := by
  refine ⟨recordIteration_first_then_count.1 _ _, ?_⟩
  have h := recordIteration_first_then_count.2 (fun _ _ => false)
    { iterations := 1, noProgressCount := 0, lastOutput := "a" } "b" (by decide)
  simpa using h

/-- C5 counterexample: the outputs differ and the error count strictly drops
(1 to 0), yet the detector reports no progress, because the
blank-current-output check fires first. -/
theorem detectProgress_smaller_count_counterexample :
    ("error" : String) ≠ ""
    ∧ countErrors "" < countErrors "error"
    ∧ detectProgress "error" "" = false := by
  decide

/-- C5 amended: identical outputs yield no progress; for differing outputs a
strictly smaller error count in the current output yields progress EXCEPT
when the current output is blank while the previous is not (the regression
check fires first); a strictly larger error count always yields no
progress. -/
theorem detectProgress_errorCount (prev current : String) :
    (detectProgress prev prev = false)
    ∧ (¬(jsTrim current = "" ∧ jsTrim prev ≠ "") →
        countErrors current < countErrors prev →
        detectProgress prev current = true)
    ∧ (countErrors prev < countErrors current →
        detectProgress prev current = false) := by
  refine ⟨by simp [detectProgress], ?_, ?_⟩
  · intro hblank hlt
    have hne : prev ≠ current := by
      intro h
      rw [h] at hlt
      omega
    have hb : (jsTrim current = "" && !(jsTrim prev = "")) = false := by
      by_cases h1 : jsTrim current = "" <;> by_cases h2 : jsTrim prev = "" <;>
        simp_all
    unfold detectProgress
    simp only [hne, if_false, hb, Bool.false_eq_true, hlt, if_true]
  · intro hlt
    have hne : prev ≠ current := by
      intro h
      rw [h] at hlt
      omega
    have h1 : ¬ (countErrors current < countErrors prev) := by omega
    unfold detectProgress
    by_cases hb : (jsTrim current = "" && !(jsTrim prev = "")) = true <;>
      simp [hne, hb, h1, hlt]

/-- Witness for C5 (amended) at concrete inputs. -/
theorem detectProgress_errorCount_witness :
    detectProgress "same" "same" = false
    ∧ detectProgress "error error" "error" = true
    ∧ detectProgress "ok" "ok error" = false := by
  refine ⟨(detectProgress_errorCount "same" "same").1, ?_, ?_⟩
  · exact (detectProgress_errorCount "error error" "error").2.1 (by decide) (by decide)
  · exact (detectProgress_errorCount "ok" "ok error").2.2 (by decide)

/-- C6 counterexample: outputs differ, error counts tie (1 = 1), the
occurrences of the success pattern `\bpassed?\b` rise from 1 to 3, yet the
detector reports no progress: non-global matching caps every pattern count at
1, so the increase is invisible and the newly appearing regression word
"fail" decides. -/
theorem tie_multiplicity_counterexample :
    ("pass failure" : String) ≠ "pass pass pass fail"
    ∧ countErrors "pass failure" = countErrors "pass pass pass fail"
    ∧ countWordAlts ["passed", "pass"] "pass failure" = 1
    ∧ countWordAlts ["passed", "pass"] "pass pass pass fail" = 3
    ∧ detectProgress "pass failure" "pass pass pass fail" = false := by
  decide

/-- C6 amended: on an error-count tie between differing outputs (current not
blank), a success-indicating pattern that appears in the current output while
entirely absent from the previous one yields progress; only this 0-to-1
appearance is detected, since non-global matching ignores multiplicity. -/
theorem tie_new_success_pattern (prev current : String) (p : TextPattern)
    (hne : prev ≠ current)
    (hblank : ¬(jsTrim current = "" ∧ jsTrim prev ≠ ""))
    (htie : countErrors prev = countErrors current)
    (hmem : p ∈ progressPatterns)
    (hprev : p.found prev = false)
    (hcur : p.found current = true) :
    detectProgress prev current = true := by
  have hb : (jsTrim current = "" && !(jsTrim prev = "")) = false := by
    by_cases h1 : jsTrim current = "" <;> by_cases h2 : jsTrim prev = "" <;>
      simp_all
  have hrose : anyCountRose progressPatterns prev current = true := by
    unfold anyCountRose
    rw [List.any_eq_true]
    refine ⟨p, hmem, ?_⟩
    simp [TextPattern.matchCount, hprev, hcur]
  have h1 : ¬ (countErrors current < countErrors prev) := by omega
  have h2 : ¬ (countErrors prev < countErrors current) := by omega
  unfold detectProgress
  simp [hne, hb, h1, h2, hrose]

/-- Witness for C6 (amended) at concrete inputs. -/
theorem tie_new_success_pattern_witness :
    detectProgress "step one" "step two pass" = true :=
  tie_new_success_pattern "step one" "step two pass" (.words ["passed", "pass"])
    (by decide) (by decide) (by decide) (by decide) (by decide) (by decide)

/-- Helper: the output `evaluateAllGo` builds is the join of its accumulated
blocks with the blocks of the criteria it actually executes. -/
theorem evaluateAllGo_output (ev : SuccessCriteria → EvaluationResult) (total : Nat) :
    ∀ (criteria : List SuccessCriteria) (outs suggs : List String),
    (evaluateAllGo ev total criteria outs suggs).output
      = String.intercalate "\n\n" (outs ++ executedBlocks ev criteria) := by
  intro criteria
  induction criteria with
  | nil => intro outs suggs; simp [evaluateAllGo, executedBlocks]
  | cons c rest ih =>
      intro outs suggs
      unfold evaluateAllGo executedBlocks
      by_cases h : (ev c).success = true
      · simp only [h, if_true, ih]
        simp
      · simp only [Bool.not_eq_true] at h
        simp [h]

/-- Helper: with every criterion before `c` passing and `c` failing,
`evaluateAllGo` reports failure. -/
theorem evaluateAllGo_first_fail (ev : SuccessCriteria → EvaluationResult) (total : Nat) :
    ∀ (pre : List SuccessCriteria) (c : SuccessCriteria) (post : List SuccessCriteria)
      (outs suggs : List String),
    (∀ x ∈ pre, (ev x).success = true) → (ev c).success = false →
    (evaluateAllGo ev total (pre ++ c :: post) outs suggs).success = false := by
  intro pre
  induction pre with
  | nil =>
      intro c post outs suggs _ hc
      unfold evaluateAllGo
      simp [hc]
  | cons x xs ih =>
      intro c post outs suggs hpre hc
      have hx : (ev x).success = true := hpre x (List.mem_cons_self x xs)
      unfold evaluateAllGo
      simp only [List.cons_append, hx, if_true]
      exact ih c post _ _ (fun y hy => hpre y (List.mem_cons_of_mem x hy)) hc

/-- Helper: the executed blocks up to and including the first failure are one
per criterion of the passing head plus one for the failing criterion. -/
theorem executedBlocks_first_fail (ev : SuccessCriteria → EvaluationResult) :
    ∀ (pre : List SuccessCriteria) (c : SuccessCriteria) (post : List SuccessCriteria),
    (∀ x ∈ pre, (ev x).success = true) → (ev c).success = false →
    executedBlocks ev (pre ++ c :: post)
      = pre.map (fun x => criterionBlock x (ev x)) ++ [criterionBlock c (ev c)] := by
  intro pre
  induction pre with
  | nil =>
      intro c post _ hc
      unfold executedBlocks
      simp [hc]
  | cons x xs ih =>
      intro c post hpre hc
      have hx : (ev x).success = true := hpre x (List.mem_cons_self x xs)
      unfold executedBlocks
      simp only [List.cons_append, hx, if_true, List.map_cons]
      rw [ih c post (fun y hy => hpre y (List.mem_cons_of_mem x hy)) hc]

/-- Helper: `evaluateAllGo` never looks past the first failing criterion: two
evaluators agreeing up to there give identical results. -/
theorem evaluateAllGo_invariance (ev ev2 : SuccessCriteria → EvaluationResult) (total : Nat) :
    ∀ (pre : List SuccessCriteria) (c : SuccessCriteria) (post : List SuccessCriteria)
      (outs suggs : List String),
    (∀ x ∈ pre, (ev x).success = true) → (ev c).success = false →
    (∀ x ∈ pre, ev2 x = ev x) → ev2 c = ev c →
    evaluateAllGo ev2 total (pre ++ c :: post) outs suggs
      = evaluateAllGo ev total (pre ++ c :: post) outs suggs := by
  intro pre
  induction pre with
  | nil =>
      intro c post outs suggs _ hc _ hc2
      unfold evaluateAllGo
      simp [hc2, hc]
  | cons x xs ih =>
      intro c post outs suggs hpre hc hagree hc2
      have hx : (ev x).success = true := hpre x (List.mem_cons_self x xs)
      have hx2 : ev2 x = ev x := hagree x (List.mem_cons_self x xs)
      unfold evaluateAllGo
      simp only [List.cons_append, hx2, hx, if_true]
      exact ih c post _ _ (fun y hy => hpre y (List.mem_cons_of_mem x hy)) hc
        (fun y hy => hagree y (List.mem_cons_of_mem x hy)) hc2

/-- C4: `evaluateAll` on the empty list is vacuously successful; on a
non-empty list its output is the join of exactly one block per criterion
actually executed; and when every criterion before `c` passes while `c`
fails, the overall result is a failure, exactly `pre.length + 1` blocks are
produced, and the criteria after `c` are never executed — the result does not
depend on the evaluator's behavior there. -/
theorem evaluateAll_short_circuit :
    (∀ ev, evaluateAll ev []
        = { success := true, output := "", reason := "No criteria to evaluate" })
    ∧ (∀ ev (criteria : List SuccessCriteria), criteria ≠ [] →
        (evaluateAll ev criteria).output
          = String.intercalate "\n\n" (executedBlocks ev criteria))
    ∧ (∀ ev (pre : List SuccessCriteria) (c : SuccessCriteria)
          (post : List SuccessCriteria),
        (∀ x ∈ pre, (ev x).success = true) → (ev c).success = false →
        (evaluateAll ev (pre ++ c :: post)).success = false
        ∧ (executedBlocks ev (pre ++ c :: post)).length = pre.length + 1
        ∧ (∀ ev2, (∀ x ∈ pre, ev2 x = ev x) → ev2 c = ev c →
            evaluateAll ev2 (pre ++ c :: post) = evaluateAll ev (pre ++ c :: post))) := by
  refine ⟨fun ev => rfl, ?_, ?_⟩
  · intro ev criteria h
    unfold evaluateAll
    rw [if_neg (by simpa using h)]
    simpa using evaluateAllGo_output ev criteria.length criteria [] []
  · intro ev pre c post hpre hc
    have hne : pre ++ c :: post ≠ [] := by simp
    refine ⟨?_, ?_, ?_⟩
    · unfold evaluateAll
      rw [if_neg (by simpa using hne)]
      exact evaluateAllGo_first_fail ev _ pre c post [] [] hpre hc
    · rw [executedBlocks_first_fail ev pre c post hpre hc]
      simp
    · intro ev2 hagree hc2
      unfold evaluateAll
      rw [if_neg (by simpa using hne), if_neg (by simpa using hne)]
      exact evaluateAllGo_invariance ev ev2 _ pre c post [] [] hpre hc hagree hc2

/-- Witness for C4: three criteria with the second failing give overall
failure, exactly two blocks, and insensitivity to the third criterion's
evaluator. -/
theorem evaluateAll_short_circuit_witness :
    evaluateAll evalW []
        = { success := true, output := "", reason := "No criteria to evaluate" }
    ∧ (evaluateAll evalW [{ type := .test_pass }, { type := .build_success },
          { type := .lint_clean }]).output
        = String.intercalate "\n\n" (executedBlocks evalW
            [{ type := .test_pass }, { type := .build_success }, { type := .lint_clean }])
    ∧ (evaluateAll evalW ([{ type := .test_pass }] ++ { type := .build_success }
          :: [{ type := .lint_clean }])).success = false
    ∧ (executedBlocks evalW ([{ type := .test_pass }] ++ { type := .build_success }
          :: [{ type := .lint_clean }])).length = 1 + 1
    ∧ evaluateAll evalW2 ([{ type := .test_pass }] ++ { type := .build_success }
          :: [{ type := .lint_clean }])
        = evaluateAll evalW ([{ type := .test_pass }] ++ { type := .build_success }
          :: [{ type := .lint_clean }]) := by
  have h := evaluateAll_short_circuit.2.2 evalW [{ type := .test_pass }]
    { type := .build_success } [{ type := .lint_clean }]
    (by decide) (by decide)
  exact ⟨evaluateAll_short_circuit.1 evalW,
    evaluateAll_short_circuit.2.1 evalW _ (by decide),
    h.1, h.2.1, h.2.2 evalW2 (by decide) (by decide)⟩

/-- C7: when the spawned command is forcibly terminated by the timeout timer
(`killed = true`, which is exactly how `executeCommand` reports exit code
`-1`), `evaluate` resolves — it never throws — with `success = false`,
`exitCode = -1`, reason "Command timed out" and the suggestion to raise the
timeout, and the command was spawned exactly once (never retried). -/
theorem evaluate_timeout (extract : SuccessCriteriaType → String → String → List String)
    (criteria : SuccessCriteria) (code : Option Int) (stdout stderr : String)
    (hcmd : (getCommandConfig criteria).command ≠ "") :
    evaluate extract (closeResult true code stdout stderr) criteria
      = ({ success := false, output := stdout ++ stderr,
           reason := "Command timed out", exitCode := some (-1),
           suggestions := some ["Increase timeout or optimize the command"] }, 1) := by
  have h1 : ¬ (criteria.type = .custom ∧ (getCommandConfig criteria).command = "") :=
    fun h => hcmd h.2
  unfold evaluate closeResult
  simp [h1, hcmd]

/-- Witness for C7: a custom criterion whose command times out. -/
theorem evaluate_timeout_witness :
    evaluate (fun _ _ _ => []) (closeResult true (some 0) "partial output" "")
      { type := .custom, command := some "sleep 10" }
      = ({ success := false, output := "partial output" ++ "",
           reason := "Command timed out", exitCode := some (-1),
           suggestions := some ["Increase timeout or optimize the command"] }, 1) :=
  evaluate_timeout (fun _ _ _ => []) { type := .custom, command := some "sleep 10" }
    (some 0) "partial output" "" (by decide)

/-- C1 counterexample: a `start()` issued while a run is already Running for
the session does not resolve with a `LoopResult` — the async function throws,
i.e. its promise rejects with the "Loop already running" error. -/
theorem start_alreadyRunning_counterexample :
    start (some "run-1") false (some fun _ => Except.ok { success := false }) none 10 "r2"
      = Except.error "Loop already running: run-1. Stop it first with stop()." :=
  rfl

/-- C1 amended: whenever no run is already Running for the session, `start()`
resolves with a structured `LoopResult` for every callback configuration —
missing, throwing, failing or succeeding — and for every stop schedule; the
single exception is a concurrent start, which rejects with the
"Loop already running" error. -/
theorem start_resolves (cb : Option (Nat → Except String IterationResult))
    (stopAfter : Option Nat) (m : Nat) (id : String) (stale : Bool)
    (activeRun : Option String) :
    (activeRun = none →
      ∃ r t, start activeRun stale cb stopAfter m id = Except.ok (r, t))
    ∧ (∀ aid, activeRun = some aid →
        start activeRun stale cb stopAfter m id
          = Except.error ("Loop already running: " ++ aid ++ ". Stop it first with stop().")) := by
  constructor
  · rintro rfl
    exact ⟨_, _, rfl⟩
  · rintro aid rfl
    rfl

/-- Witness for C1 (amended): a throwing callback still yields a resolved
result; a concurrent start rejects. -/
theorem start_resolves_witness :
    (∃ r t, start none true (some fun _ => Except.error "boom") none 3 "rid"
        = Except.ok (r, t))
    ∧ start (some "active") true (some fun _ => Except.error "boom") none 3 "rid"
        = Except.error ("Loop already running: " ++ "active" ++ ". Stop it first with stop().") :=
  ⟨(start_resolves (some fun _ => Except.error "boom") none 3 "rid" true none).1 rfl,
   (start_resolves (some fun _ => Except.error "boom") none 3 "rid" true
      (some "active")).2 "active" rfl⟩

/-- C2 counterexample: `start()` with no registered iteration callback does
NOT fail synchronously before any state mutation: the run record is created
(`createLoopRun`) and iteration 1 is persisted (`updateIterations 1`) before
the missing-callback error is caught and reported as a resolved `LoopResult`
with reason `error`. -/
theorem start_noCallback_counterexample :
    start none false none none 10 "run-2"
      = Except.ok ({ success := false, iterations := 1, reason := .error,
                     loopRunId := "run-2", error := some noCallbackMsg },
          [.createLoopRun, .updateIterations 1, .endLoopRun "failed", .createObservation]) :=
  rfl

/-- C2 amended: with no iteration callback registered (and a positive
iteration budget), the missing-callback check only fires inside the first
loop pass: the `LoopRun` record is created and iteration 1 persisted first,
then the throw is caught at the loop boundary and `start()` resolves with
reason `error` carrying the missing-callback message, the run ending
`failed`. -/
theorem start_noCallback (m : Nat) (id : String) (stale : Bool) (hm : 1 ≤ m) :
    start none stale none none m id
      = Except.ok ({ success := false, iterations := 1, reason := .error,
                     loopRunId := id, error := some noCallbackMsg },
          [.createLoopRun, .updateIterations 1, .endLoopRun "failed", .createObservation]) := by
  obtain ⟨k, rfl⟩ : ∃ k, m = k + 1 := ⟨m - 1, by omega⟩
  rfl

/-- Witness for C2 (amended) at the default iteration budget. -/
theorem start_noCallback_witness :
    start none true none none 10 "rid"
      = Except.ok ({ success := false, iterations := 1, reason := .error,
                     loopRunId := "rid", error := some noCallbackMsg },
          [.createLoopRun, .updateIterations 1, .endLoopRun "failed", .createObservation]) :=
  start_noCallback 10 "rid" true (by decide)

/-- Helper: with the entry flag cleared and no stop() call during the run,
the loop never terminates with reason `stopped`. -/
theorem loopGo_never_stopped (cb : Option (Nat → Except String IterationResult))
    (id : String) :
    ∀ (fuel iteration : Nat) (le : Option String) (tr : List DBEvent),
    (loopGo cb false none id fuel iteration le tr).1.reason ≠ LoopReason.stopped := by
  intro fuel
  induction fuel with
  | zero =>
      intro iteration le tr
      simp [loopGo]
  | succ n ih =>
      intro iteration le tr
      unfold loopGo
      have hflag : stopFlagAt false none iteration = false := rfl
      rw [hflag]
      simp only [Bool.false_eq_true, if_false]
      cases cb with
      | none => simp
      | some f =>
          cases hf : f (iteration + 1) with
          | error msg =>
              simp [hf]
          | ok r =>
              by_cases hs : r.success = true
              · simp [hf, hs]
              · simp only [Bool.not_eq_true] at hs
                simp only [hf, hs, Bool.false_eq_true, if_false]
                exact ih (iteration + 1) _ _

/-- Helper: a stop() issued once `k` iterations have completed, with the
callback never succeeding, is observed at the top of pass `k + 1`:
the loop ends with reason `stopped` after exactly `k` iterations. -/
theorem loopGo_stops_at (f : Nat → Except String IterationResult) (id : String) (k : Nat)
    (hfail : ∀ i, ∃ res, f i = Except.ok res ∧ res.success = false) :
    ∀ (fuel j : Nat) (le : Option String) (tr : List DBEvent),
    j ≤ k → k < j + fuel →
    ∃ t, loopGo (some f) false (some k) id fuel j le tr
      = ({ success := false, iterations := k, reason := .stopped, loopRunId := id }, t) := by
  intro fuel
  induction fuel with
  | zero =>
      intro j le tr h1 h2
      omega
  | succ n ih =>
      intro j le tr h1 h2
      by_cases hjk : j = k
      · subst hjk
        refine ⟨tr ++ [.endLoopRun "stopped", .createObservation], ?_⟩
        unfold loopGo
        have hflag : stopFlagAt false (some j) j = true := by
          simp [stopFlagAt]
        rw [hflag]
        simp
      · have hlt : j < k := by omega
        have hflag : stopFlagAt false (some k) j = false := by
          simp [stopFlagAt]
          omega
        obtain ⟨res, hres, hsucc⟩ := hfail (j + 1)
        unfold loopGo
        rw [hflag]
        simp only [Bool.false_eq_true, if_false, hres, hsucc, Bool.false_eq_true, if_false]
        exact ih (j + 1) _ _ (by omega) (by omega)

/-- C10: the result of `start()` is independent of the value the cooperative
stop flag held before the call (line 199 clears it); with no stop() during
the run the result never has reason `stopped`; and a stop() issued after
`start()`, once `k < maxIterations` iterations of a never-succeeding callback
have completed, takes effect at the top of the next pass: the run ends
`stopped` with exactly `k` iterations. -/
theorem start_clears_stale_stop :
    (∀ (activeRun : Option String) (s1 s2 : Bool) cb (stopAfter : Option Nat)
        (m : Nat) (id : String),
      start activeRun s1 cb stopAfter m id = start activeRun s2 cb stopAfter m id)
    ∧ (∀ (stale : Bool) cb (m : Nat) (id : String) (r : LoopResult) (t : List DBEvent),
        start none stale cb none m id = Except.ok (r, t) → r.reason ≠ .stopped)
    ∧ (∀ (stale : Bool) (f : Nat → Except String IterationResult) (k m : Nat) (id : String),
        1 ≤ k → k < m →
        (∀ i, ∃ res, f i = Except.ok res ∧ res.success = false) →
        ∃ t, start none stale (some f) (some k) m id
          = Except.ok ({ success := false, iterations := k, reason := .stopped,
                         loopRunId := id }, t)) := by
  refine ⟨fun _ _ _ _ _ _ _ => rfl, ?_, ?_⟩
  · intro stale cb m id r t h
    have h2 : (loopGo cb false none id m 0 none [DBEvent.createLoopRun]) = (r, t) := by
      simpa [start] using h
    have := loopGo_never_stopped cb id m 0 none [DBEvent.createLoopRun]
    rw [h2] at this
    exact this
  · intro stale f k m id hk hm hfail
    obtain ⟨t, ht⟩ := loopGo_stops_at f id k hfail m 0 none [DBEvent.createLoopRun]
      (by omega) (by omega)
    refine ⟨t, ?_⟩
    have hstart : start none stale (some f) (some k) m id
        = Except.ok (loopGo (some f) false (some k) id m 0 none [DBEvent.createLoopRun]) :=
      rfl
    rw [hstart, ht]

/-- Witness for C10 at concrete inputs: stale-flag independence, a stop-free
run ending with `max_iterations` (not `stopped`), and a stop after iteration
1 of 3 ending the run `stopped` at 1 iteration. -/
theorem start_clears_stale_stop_witness :
    start none true (some fun _ => Except.ok { success := false }) none 2 "w"
        = start none false (some fun _ => Except.ok { success := false }) none 2 "w"
    ∧ ({ success := false, iterations := 2, reason := .max_iterations, loopRunId := "w",
         error := none } : LoopResult).reason ≠ LoopReason.stopped
    ∧ ∃ t, start none true (some fun _ => Except.ok { success := false }) (some 1) 3 "w"
        = Except.ok ({ success := false, iterations := 1, reason := .stopped,
                       loopRunId := "w" }, t) := by
  refine ⟨start_clears_stale_stop.1 none true false _ none 2 "w", ?_, ?_⟩
  · exact start_clears_stale_stop.2.1 true (some fun _ => Except.ok { success := false })
      2 "w"
      { success := false, iterations := 2, reason := .max_iterations, loopRunId := "w" }
      [.createLoopRun, .updateIterations 1, .updateIterations 2,
       .endLoopRun "failed", .createObservation]
      rfl
  · exact start_clears_stale_stop.2.2 true (fun _ => Except.ok { success := false })
      1 3 "w" (by decide) (by decide)
      (fun i => ⟨{ success := false }, rfl, rfl⟩)

/-- Helper: a file lookup after a write sees the written content at the
written path and is unchanged elsewhere. -/
theorem lookupFile_writeFile (fs : FS) (p content q : String) :
    lookupFile (writeFile fs p content) q
      = if q = p then some content else lookupFile fs q := by
  unfold lookupFile writeFile
  by_cases h : q = p
  · subst h
    simp
  · simp [List.find?_cons, h]
    rw [decide_eq_false fun hpq => h hpq.symm]

/-- Helper: creating a directory changes no file lookup. -/
theorem lookupFile_mkdirp (fs : FS) (d q : String) :
    lookupFile (mkdirp fs d) q = lookupFile fs q :=
  rfl

/-- Helper: `pjoin` is injective in its relative component. -/
theorem pjoin_right_inj (a : String) {b c : String} (h : pjoin a b = pjoin a c) :
    b = c := by
  have hd : (a ++ "/").data ++ b.data = (a ++ "/").data ++ c.data :=
    congrArg String.data h
  have hbc : b.data = c.data := List.append_cancel_left hd
  cases b
  cases c
  exact congrArg String.mk hbc

/-- Helper: one restore step only writes at its own destination path. -/
theorem restoreStep_lookup_other (P S : String) (acc : FS) (x q : String)
    (h : pjoin P x ≠ q) :
    lookupFile (restoreStep P S acc x) q = lookupFile acc q := by
  simp only [restoreStep]
  cases hsrc : lookupFile acc (pjoin S x) with
  | none => rfl
  | some content =>
      simp only [lookupFile_writeFile, lookupFile_mkdirp]
      rw [if_neg (fun hq => h hq.symm)]

/-- Helper: the restore fold leaves every path that is no file's destination
unchanged. -/
theorem restoreFold_lookup_other (P S : String) :
    ∀ (files : List String) (acc : FS) (q : String),
    (∀ f ∈ files, pjoin P f ≠ q) →
    lookupFile (files.foldl (restoreStep P S) acc) q = lookupFile acc q := by
  intro files
  induction files with
  | nil =>
      intro acc q _
      rfl
  | cons x xs ih =>
      intro acc q h
      simp only [List.foldl_cons]
      rw [ih _ q (fun f hf => h f (List.mem_cons_of_mem x hf))]
      exact restoreStep_lookup_other P S acc x q (h x (List.mem_cons_self x xs))

/-- Helper: provided no destination path collides with any source path, the
restore fold copies each file still present in the snapshot to its
destination and leaves the destination of each missing file untouched. -/
theorem restoreFold_copies (P S : String) :
    ∀ (files : List String) (acc : FS),
    (∀ f ∈ files, ∀ g ∈ files, pjoin P f ≠ pjoin S g) →
    ∀ f ∈ files,
    (∀ content, lookupFile acc (pjoin S f) = some content →
        lookupFile (files.foldl (restoreStep P S) acc) (pjoin P f) = some content)
    ∧ (lookupFile acc (pjoin S f) = none →
        lookupFile (files.foldl (restoreStep P S) acc) (pjoin P f)
          = lookupFile acc (pjoin P f)) := by
  intro files
  induction files with
  | nil =>
      intro acc _ f hf
      exact absurd hf (List.not_mem_nil f)
  | cons x xs ih =>
      intro acc hdisj f hf
      have hdisj' : ∀ a ∈ xs, ∀ b ∈ xs, pjoin P a ≠ pjoin S b := fun a ha b hb =>
        hdisj a (List.mem_cons_of_mem x ha) b (List.mem_cons_of_mem x hb)
      simp only [List.foldl_cons]
      rcases List.mem_cons.mp hf with rfl | hfxs
      · constructor
        · intro content hsrc
          by_cases hfxs2 : f ∈ xs
          · have hsrc2 : lookupFile (restoreStep P S acc f) (pjoin S f) = some content := by
              rw [restoreStep_lookup_other P S acc f (pjoin S f) (hdisj f hf f hf)]
              exact hsrc
            exact (ih (restoreStep P S acc f) hdisj' f hfxs2).1 content hsrc2
          · have hother : ∀ g ∈ xs, pjoin P g ≠ pjoin P f := by
              intro g hg hEq
              exact hfxs2 (pjoin_right_inj P hEq ▸ hg)
            rw [restoreFold_lookup_other P S xs _ (pjoin P f) hother]
            simp only [restoreStep]
            rw [hsrc]
            simp [lookupFile_writeFile, lookupFile_mkdirp]
        · intro hsrc
          have hstep : restoreStep P S acc f = acc := by
            simp only [restoreStep]
            rw [hsrc]
          rw [hstep]
          by_cases hfxs2 : f ∈ xs
          · exact (ih acc hdisj' f hfxs2).2 hsrc
          · have hother : ∀ g ∈ xs, pjoin P g ≠ pjoin P f := by
              intro g hg hEq
              exact hfxs2 (pjoin_right_inj P hEq ▸ hg)
            exact restoreFold_lookup_other P S xs acc (pjoin P f) hother
      · have hsrcStable : lookupFile (restoreStep P S acc x) (pjoin S f)
            = lookupFile acc (pjoin S f) :=
          restoreStep_lookup_other P S acc x (pjoin S f)
            (hdisj x (List.mem_cons_self x xs) f hf)
        constructor
        · intro content hsrc
          exact (ih (restoreStep P S acc x) hdisj' f hfxs).1 content
            (by rw [hsrcStable]; exact hsrc)
        · intro hsrc
          have h2 := (ih (restoreStep P S acc x) hdisj' f hfxs).2
            (by rw [hsrcStable]; exact hsrc)
          rw [h2]
          by_cases hxf : x = f
          · subst hxf
            have hstep : restoreStep P S acc x = acc := by
              simp only [restoreStep]
              rw [hsrc]
            rw [hstep]
          · exact restoreStep_lookup_other P S acc x (pjoin P f)
              (fun hEq => hxf (pjoin_right_inj P hEq))

/-- C8: `restore` fails with "Snapshot not found" for every nonexistent path
and with "Invalid snapshot" for every existing snapshot whose manifest file
is missing; otherwise (manifest readable, and no restore destination
colliding with a snapshot source path) it succeeds, copying every
manifest-listed file still present in the snapshot back to its original
relative location under the project root and skipping — leaving untouched —
the destination of every manifest-listed file no longer present. -/
theorem restore_spec :
    (∀ (P : String) (fs : FS) (S : String), pathExists fs S = false →
        restore P fs S = Except.error ("Snapshot not found: " ++ S))
    ∧ (∀ (P : String) (fs : FS) (S : String),
        pathExists fs S = true →
        pathExists fs (pjoin S ".snapshot-meta.json") = false →
        restore P fs S = Except.error ("Invalid snapshot: missing metadata at " ++ S))
    ∧ (∀ (P : String) (fs : FS) (S : String) (m : Manifest),
        pathExists fs S = true →
        lookupMeta fs (pjoin S ".snapshot-meta.json") = some m →
        (∀ f ∈ m.files, ∀ g ∈ m.files, pjoin P f ≠ pjoin S g) →
        ∃ fs2, restore P fs S = Except.ok fs2
          ∧ ∀ f ∈ m.files,
              (∀ content, lookupFile fs (pjoin S f) = some content →
                  lookupFile fs2 (pjoin P f) = some content)
              ∧ (lookupFile fs (pjoin S f) = none →
                  lookupFile fs2 (pjoin P f) = lookupFile fs (pjoin P f))) := by
  refine ⟨?_, ?_, ?_⟩
  · intro P fs S h
    simp [restore, h]
  · intro P fs S h1 h2
    simp [restore, h1, h2]
  · intro P fs S m h1 hmeta hdisj
    have h2 : pathExists fs (pjoin S ".snapshot-meta.json") = true := by
      simp [pathExists, hmeta]
    refine ⟨m.files.foldl (restoreStep P S) fs, ?_, ?_⟩
    · simp [restore, h1, h2, hmeta]
    · intro f hf
      exact restoreFold_copies P S m.files fs hdisj f hf

/-- Witness for C8 at a concrete filesystem: nonexistent path, manifestless
directory, and a successful restore copying `a.txt` while skipping the
vanished `gone.txt`. -/
theorem restore_spec_witness :
    restore "proj" fsW "missing" = Except.error ("Snapshot not found: " ++ "missing")
    ∧ restore "proj" { dirs := ["empty"], files := [], metas := [] } "empty"
        = Except.error ("Invalid snapshot: missing metadata at " ++ "empty")
    ∧ ∃ fs2, restore "proj" fsW "snap" = Except.ok fs2
        ∧ lookupFile fs2 (pjoin "proj" "a.txt") = some "hello"
        ∧ lookupFile fs2 (pjoin "proj" "gone.txt")
            = lookupFile fsW (pjoin "proj" "gone.txt") := by
  refine ⟨restore_spec.1 "proj" fsW "missing" (by decide),
    restore_spec.2.1 "proj" { dirs := ["empty"], files := [], metas := [] } "empty"
      (by decide) (by decide), ?_⟩
  obtain ⟨fs2, hok, hcopy⟩ := restore_spec.2.2 "proj" fsW "snap"
    { runId := "run1", createdAt := "2025-01-17T00:00:00Z",
      files := ["a.txt", "gone.txt"] }
    (by decide) (by decide) (by decide)
  refine ⟨fs2, hok, ?_, ?_⟩
  · exact (hcopy "a.txt" (by decide)).1 "hello" (by decide)
  · exact (hcopy "gone.txt" (by decide)).2 (by decide)

end Ralph
